import Mathlib

/-!
Verification of the STUNner `Cluster` object (src/internal/object/cluster.go).

The embedding models bytes as `Nat` (values 0..255) and Go's `net.IP` as a
`List Nat`; the empty list stands for Go's `nil` slice, exactly as Go code
distinguishes `nil` only through `len`/`== nil` checks.  The `Net` namespace
is a faithful translation of the Go standard-library functions the cluster
code calls (`net.ParseCIDR`, `net.ParseIP`, `IP.To4`, `IP.Equal`, `IP.Mask`,
`IPNet.Contains`, `IPNet.String`), following the Go 1.17 `net/ip.go` sources.
-/

namespace Net

/-- Go `net`: `IPv4len = 4`. -/
def IPv4len : Nat := 4

/-- Go `net`: `IPv6len = 16`. -/
def IPv6len : Nat := 16

/-- Go `net`: the 12-byte head `v4InV6Prefix` of an IPv4-mapped IPv6 address. -/
def v4InV6Head : List Nat := [0, 0, 0, 0, 0, 0, 0, 0, 0, 0, 0xff, 0xff]

/-- Go `net`: `big = 0xFFFFFF`, the overflow cutoff of `dtoi`/`xtoi`. -/
def bigCutoff : Nat := 0xFFFFFF

/-- Go `net.IP.To4`: the 4-byte form of an IPv4 or IPv4-mapped address,
`[]` (nil) otherwise. -/
def To4 (ip : List Nat) : List Nat :=
  if ip.length = IPv4len then ip
  else if ip.length = IPv6len ∧ ip.take 12 = v4InV6Head then ip.drop 12
  else []

/-- Go `net.IP.Equal`: bytewise equality up to the IPv4/IPv4-in-IPv6
identification. -/
def IPEqual (ip x : List Nat) : Bool :=
  if ip.length = x.length then ip == x
  else if ip.length = IPv4len ∧ x.length = IPv6len then
    x.take 12 == v4InV6Head && ip == x.drop 12
  else if ip.length = IPv6len ∧ x.length = IPv4len then
    ip.take 12 == v4InV6Head && ip.drop 12 == x
  else false

/-- Go `net.IP.Mask`: apply a mask to an address, aligning a 16-byte mask
with a 4-byte address and vice versa; `[]` (nil) on length mismatch. -/
def MaskIP (ip mask : List Nat) : List Nat :=
  let mask := if mask.length = IPv6len ∧ ip.length = IPv4len ∧
      mask.take 12 = [0xff, 0xff, 0xff, 0xff, 0xff, 0xff, 0xff, 0xff, 0xff, 0xff, 0xff, 0xff]
    then mask.drop 12 else mask
  let ip := if mask.length = IPv4len ∧ ip.length = IPv6len ∧ ip.take 12 = v4InV6Head
    then ip.drop 12 else ip
  if ip.length = mask.length then
    (ip.zip mask).map (fun p => p.1 &&& p.2)
  else []

/-- Go `net.CIDRMask`: a mask of `ones` one-bits followed by zero-bits,
total length `bits` (32 or 128); `[]` (nil) for invalid arguments. -/
def CIDRMask (ones bits : Nat) : List Nat :=
  if bits ≠ 8 * IPv4len ∧ bits ≠ 8 * IPv6len then []
  else if ones > bits then []
  else
    (List.range (bits / 8)).map (fun i =>
      let n := ones - 8 * i
      if 8 * i + 8 ≤ ones then 0xff
      else if ones ≤ 8 * i then 0
      else 0xff - (0xff >>> n))

/-- Go `net.IPNet`: an address with a mask. -/
structure IPNet where
  ip : List Nat
  mask : List Nat
  deriving Repr, DecidableEq

/-- Go `net`: `dtoi`, decimal parse of a prefix of a character list; returns
the value, the number of characters consumed and an ok flag. -/
def dtoi : List Char → Nat → Nat → Nat × Nat × Bool
  | [], n, i => if i = 0 then (0, 0, false) else (n, i, true)
  | c :: rest, n, i =>
    if '0' ≤ c ∧ c ≤ '9' then
      let n2 := n * 10 + (c.toNat - '0'.toNat)
      if n2 ≥ bigCutoff then (bigCutoff, i, false)
      else dtoi rest n2 (i + 1)
    else if i = 0 then (0, 0, false) else (n, i, true)

/-- Go `net`: `xtoi`, hexadecimal parse of a prefix of a character list. -/
def xtoi : List Char → Nat → Nat → Nat × Nat × Bool
  | [], n, i => if i = 0 then (0, 0, false) else (n, i, true)
  | c :: rest, n, i =>
    if '0' ≤ c ∧ c ≤ '9' then
      let n2 := n * 16 + (c.toNat - '0'.toNat)
      if n2 ≥ bigCutoff then (0, i, false) else xtoi rest n2 (i + 1)
    else if 'a' ≤ c ∧ c ≤ 'f' then
      let n2 := n * 16 + (c.toNat - 'a'.toNat) + 10
      if n2 ≥ bigCutoff then (0, i, false) else xtoi rest n2 (i + 1)
    else if 'A' ≤ c ∧ c ≤ 'F' then
      let n2 := n * 16 + (c.toNat - 'A'.toNat) + 10
      if n2 ≥ bigCutoff then (0, i, false) else xtoi rest n2 (i + 1)
    else if i = 0 then (0, 0, false) else (n, i, true)

/-- Go `net`: `parseIPv4`, dotted-quad parse; rejects leading zeros and
out-of-range octets; yields the 16-byte IPv4-in-IPv6 form (Go's `IPv4`
constructor), `[]` (nil) on failure. -/
def parseIPv4Fields : Nat → List Char → List Nat → List Nat
  | 0, s, acc => if s = [] then v4InV6Head ++ acc else []
  | fuel + 1, s, acc =>
    let s := if acc = [] then some s
      else match s with
        | '.' :: rest => some rest
        | _ => none
    match s with
    | none => []
    | some s =>
      if s = [] then []
      else
        let (n, c, ok) := dtoi s 0 0
        if ¬ok ∨ n > 0xFF then []
        else if c > 1 ∧ s.headD ' ' = '0' then []
        else parseIPv4Fields fuel (s.drop c) (acc ++ [n])

def parseIPv4 (s : List Char) : List Nat := parseIPv4Fields 4 s []

/-- Go `net`: the main loop of `parseIPv6`.  `acc` holds the bytes produced
so far, `ell` the byte position of a `::` if one was seen.  Returns `none`
on a malformed address, otherwise the accumulated bytes, the ellipsis
position and the unconsumed characters. -/
def parseIPv6Loop : Nat → List Char → List Nat → Option Nat →
    Option (List Nat × Option Nat × List Char)
  | 0, s, acc, ell => some (acc, ell, s)
  | fuel + 1, s, acc, ell =>
    if acc.length ≥ IPv6len then some (acc, ell, s)
    else
      let (n, c, ok) := xtoi s 0 0
      if ¬ok ∨ n > 0xFFFF then none
      else if c < s.length ∧ s.getD c ' ' = '.' then
        -- trailing embedded IPv4 address
        if ell = none ∧ acc.length ≠ IPv6len - IPv4len then none
        else if acc.length + IPv4len > IPv6len then none
        else
          let ip4 := parseIPv4 s
          if ip4 = [] then none
          else some (acc ++ ip4.drop 12, ell, [])
      else
        let acc := acc ++ [n / 256, n % 256]
        let s := s.drop c
        if s = [] then some (acc, ell, [])
        else if s.headD ' ' ≠ ':' ∨ s.length = 1 then none
        else
          let s := s.drop 1
          if s.headD ' ' = ':' then
            if ell.isSome then none
            else
              let s := s.drop 1
              if s = [] then some (acc, some acc.length, [])
              else parseIPv6Loop fuel s acc (some acc.length)
          else parseIPv6Loop fuel s acc ell

/-- Go `net`: `parseIPv6`; yields the 16-byte address, `[]` (nil) on
failure. -/
def parseIPv6 (s : List Char) : List Nat :=
  let start : Option (List Char × Option Nat) :=
    match s with
    | ':' :: ':' :: rest => some (rest, some 0)
    | _ => some (s, none)
  match start with
  | none => []
  | some (s, ell) =>
    if ell = some 0 ∧ s = [] then List.replicate IPv6len 0
    else
      match parseIPv6Loop 8 s [] ell with
      | none => []
      | some (acc, ell, rest) =>
        if rest ≠ [] then []
        else if acc.length < IPv6len then
          match ell with
          | none => []
          | some e =>
            acc.take e ++ List.replicate (IPv6len - acc.length) 0 ++ acc.drop e
        else if ell.isSome then []
        else acc

/-- Go `net`: `splitHostZone`; a `%` at a positive index splits off the
zone. -/
def splitHostZone (s : List Char) : List Char :=
  match (s.reverse.takeWhile (· ≠ '%')).length with
  | n =>
    if n < s.length ∧ s.length - n - 1 > 0 then s.take (s.length - n - 1) else s

/-- Go `net.ParseIP`: the first `.` or `:` selects the family. -/
def parseIPCore : List Char → List Char → List Nat
  | [], _ => []
  | c :: rest, whole =>
    if c = '.' then parseIPv4 whole
    else if c = ':' then parseIPv6 (splitHostZone whole)
    else parseIPCore rest whole

def ParseIP (s : String) : List Nat := parseIPCore s.data s.data

/-- Go `net.ParseCIDR`: split at the first `/`, parse the address (IPv4
first, then IPv6), parse the decimal prefix length, and return the masked
network.  `none` models a non-nil error. -/
def ParseCIDR (s : String) : Option IPNet :=
  let cs := s.data
  let addr := cs.takeWhile (· ≠ '/')
  if addr.length = cs.length then none
  else
    let mask := cs.drop (addr.length + 1)
    let ip4 := parseIPv4 addr
    let (ip, iplen) := if ip4 ≠ [] then (ip4, IPv4len)
      else (parseIPv6 (splitHostZone addr), IPv6len)
    let (n, i, ok) := dtoi mask 0 0
    if ip = [] ∨ ¬ok ∨ i ≠ mask.length ∨ n > 8 * iplen then none
    else
      let m := CIDRMask n (8 * iplen)
      some { ip := MaskIP ip m, mask := m }

/-- Go `net`: `networkNumberAndMask`; canonicalizes a net to a 4-byte form
when its address is IPv4, returning `([], [])` for Go's `(nil, nil)`. -/
def networkNumberAndMask (n : IPNet) : List Nat × List Nat :=
  let ip := if To4 n.ip ≠ [] then To4 n.ip
    else if n.ip.length = IPv6len then n.ip else []
  if ip = [] then ([], [])
  else if n.mask.length = IPv4len then
    if ip.length ≠ IPv4len then ([], []) else (ip, n.mask)
  else if n.mask.length = IPv6len then
    (ip, if ip.length = IPv4len then n.mask.drop 12 else n.mask)
  else ([], [])

/-- Go `net.IPNet.Contains`: the peer, brought to its 4-byte form when
possible, agrees with the network number under the mask. -/
def Contains (n : IPNet) (ip : List Nat) : Bool :=
  let (nn, m) := networkNumberAndMask n
  let ip := if To4 ip ≠ [] then To4 ip else ip
  if ip.length ≠ nn.length then false
  else ((nn.zip m).zip ip).all (fun p => p.1.1 &&& p.1.2 == p.2 &&& p.1.2)

/-- Lowercase hexadecimal digits of a group value, no leading zeros
(Go `appendHex`). -/
def hexDigits : Nat → Nat → List Char
  | 0, _ => []
  | fuel + 1, n =>
    if n < 16 then [hexDigit n] else hexDigits fuel (n / 16) ++ [hexDigit (n % 16)]
where hexDigit (d : Nat) : Char :=
  if d < 10 then Char.ofNat ('0'.toNat + d) else Char.ofNat ('a'.toNat + d - 10)

def hexStr (n : Nat) : String := String.mk (hexDigits 8 n)

/-- The 2-digit hexadecimal byte dump Go uses for `IPMask.String` and for
addresses of unusual length. -/
def hexBytes (bs : List Nat) : String :=
  String.join (bs.map (fun b =>
    String.mk [hexDigits.hexDigit (b / 16), hexDigits.hexDigit (b % 16)]))

/-- The 16-bit groups of a 16-byte address. -/
def hexGroups : List Nat → List Nat
  | a :: b :: rest => (a * 256 + b) :: hexGroups rest
  | _ => []

/-- Go `IP.String`, zero-run search: the first longest run of at least two
all-zero groups, as (start, length) in group units. -/
def bestZeroRun (gs : List Nat) : Option (Nat × Nat) :=
  let runs := (List.range gs.length).map (fun i =>
    (i, ((gs.drop i).takeWhile (· = 0)).length))
  let best := runs.foldl (fun b p => if p.2 > b.2 then p else b) (0, 0)
  if best.2 ≥ 2 then some best else none

/-- Go `IP.String`: dotted quad for (possibly mapped) IPv4, RFC 5952-style
zero compression for IPv6, `<nil>` for the nil address, a `?`-prefixed hex
dump otherwise. -/
def IPToString (ip : List Nat) : String :=
  if ip = [] then "<nil>"
  else
    match To4 ip with
    | [a, b, c, d] =>
      toString a ++ "." ++ toString b ++ "." ++ toString c ++ "." ++ toString d
    | _ =>
      if ip.length ≠ IPv6len then "?" ++ hexBytes ip
      else
        let gs := hexGroups ip
        match bestZeroRun gs with
        | none => String.intercalate ":" (gs.map hexStr)
        | some (s, l) =>
          String.intercalate ":" ((gs.take s).map hexStr) ++ "::" ++
            String.intercalate ":" ((gs.drop (s + l)).map hexStr)

/-- Go `simpleMaskLength`: the prefix length of a ones-then-zeros mask,
`none` for a non-contiguous mask. -/
def simpleMaskLength : List Nat → Option Nat
  | [] => some 0
  | v :: rest =>
    if v = 0xff then (simpleMaskLength rest).map (8 + ·)
    else
      match [0, 128, 192, 224, 240, 248, 252, 254].indexOf v with
      | 8 => none
      | k => if rest.all (· = 0) then some k else none

/-- Go `IPNet.String`: network number, a slash, and the prefix length (or
the hex mask when the mask is not contiguous). -/
def IPNetToString (n : IPNet) : String :=
  let (nn, m) := networkNumberAndMask n
  if nn = [] ∨ m = [] then "<nil>"
  else
    match simpleMaskLength m with
    | none => IPToString nn ++ "/" ++ hexBytes m
    | some l => IPToString nn ++ "/" ++ toString l

end Net

/-!
The `v1alpha1` configuration surface.  The `v1alpha1` package is repository
code that is not under `src/`; the definitions below carry their provenance
in their doc comments.
-/

/-- The cluster type tag (`v1alpha1.ClusterType`).  The zero value is
`static`, only relevant before the first `Reconcile` of a fresh object. -/
inductive ClusterType where
  | static
  | strictDNS
  deriving Repr, DecidableEq

/-- Modelled from the spec: `v1alpha1.NewClusterType` (not under `src/`)
recognizes exactly the two type literals of §6,
`type: "STATIC"|"STRICT_DNS"`; any other literal is an error (`none`). -/
def NewClusterType (s : String) : Option ClusterType :=
  if s = "STATIC" then some ClusterType.static
  else if s = "STRICT_DNS" then some ClusterType.strictDNS
  else none

/-- Modelled from the spec: `ClusterType.String` (not under `src/`) renders
the literal back (§6). -/
def ClusterType.toStr : ClusterType → String
  | .static => "STATIC"
  | .strictDNS => "STRICT_DNS"

/-- `v1alpha1.ClusterConfig`: `{ name, type, endpoints }` (§6). -/
structure ClusterConfig where
  name : String
  type : String
  endpoints : List String
  deriving Repr, DecidableEq

/-- The errors the cluster surface can report.  `restartRequired` models
`v1alpha1.ErrRestartRequired`; `emptyName` and `badType` the two structural
validation failures; `noResolver` the `STRICT_DNS`-without-resolver error
built with `fmt.Errorf` in `Reconcile`. -/
inductive ClusterError where
  | emptyName
  | badType
  | noResolver (name : String)
  | restartRequired
  deriving Repr, DecidableEq

/-- Modelled from the spec: `v1alpha1.ClusterConfig.Validate` (not under
`src/`) "validates the configuration structurally (non-empty name,
recognized type literal)" (§4.1, §7). -/
def Validate (conf : ClusterConfig) : Option ClusterError :=
  if conf.name = "" then some ClusterError.emptyName
  else if (NewClusterType conf.type).isNone then some ClusterError.badType
  else none

/-!
The DNS resolver.  The resolver is an external collaborator specified only
by its contract (spec §4.3); the cluster code calls `Register`,
`Unregister` and `Lookup` on it.  Its behaviour is modelled by a pure
`DnsResolver` value and its registration side effects by an explicit
`ResolverState` threaded through the operations.  `regCalls` and
`unregCalls` are ghost traces recording every `Register`/`Unregister`
invocation; they let theorems speak about how often a domain was
(un)registered.
-/

/-- Modelled from the spec: the behaviour of a `resolver.DnsResolver` (not
under `src/`).  `regOK d` says whether `Register d` succeeds ("returns an
error for structurally invalid domain names", §4.3); `lookup d` is the
cached address set together with an error flag ("returns the currently
known resolved address set … returns an error if the domain is
unregistered or currently unresolved", §4.3). -/
structure DnsResolver where
  regOK : String → Bool
  lookup : String → List (List Nat) × Bool

/-- The registration state of the resolver on behalf of the one cluster
under study, plus the ghost call traces. -/
structure ResolverState where
  registered : List String
  regCalls : List String
  unregCalls : List String
  deriving Repr, DecidableEq

/-- Modelled from the spec: `DnsResolver.Register` (not under `src/`);
"begin tracking domain for resolution; idempotent for repeated registration
of the same domain; returns an error for structurally invalid domain
names" (§4.3).  Returns Go's `error == nil` as `true`. -/
def RegisterOp (r : DnsResolver) (st : ResolverState) (h : String) :
    Bool × ResolverState :=
  let st := { st with regCalls := st.regCalls ++ [h] }
  if r.regOK h then
    (true, { st with registered :=
      if st.registered.contains h then st.registered else st.registered ++ [h] })
  else (false, st)

/-- Modelled from the spec: `DnsResolver.Unregister` (not under `src/`);
"stop tracking on behalf of one caller; safe no-op if the domain is
unknown" (§4.3). -/
def UnregisterOp (st : ResolverState) (h : String) : ResolverState :=
  { st with
    registered := st.registered.filter (fun x => x ≠ h)
    unregCalls := st.unregCalls ++ [h] }

/-!
The `util` helpers called by `Reconcile`.  `internal/util` is repository
code that is not under `src/`.
-/

/-- List membership test by a scan, as Go helper code writes it. -/
def member (l : List String) (x : String) : Bool :=
  l.any (fun y => y == x)

/-- Modelled from the spec: `util.Diff` (not under `src/`) splits the
reconcile work per §4.1: the domains "present in current but absent in
requested" (deleted) and those "present in requested but absent in
current" (added). -/
def Diff (a b : List String) : List String × List String :=
  (a.filter (fun x => ¬ member b x), b.filter (fun x => ¬ member a x))

/-- Modelled from the spec: `util.Remove` (not under `src/`) removes a
domain from the domain list ("remove it from Domains", §4.1). -/
def Remove (l : List String) (x : String) : List String :=
  l.filter (fun y => y ≠ x)

/-!
The `Cluster` object itself (src/internal/object/cluster.go).  Go mutates
the receiver in place; the embedding passes the `Cluster` value and the
`ResolverState` explicitly, and `Reconcile` returns
`(error, cluster, resolver state)` so that mutations made before an error
return remain visible, exactly as with Go's in-place update.
-/

/-- `object.Cluster`: name, type tag, static subnets, DNS domains and the
(optional, possibly nil) resolver reference.  The Go field `Type` is
rendered `type`, a reserved word in Lean. -/
structure Cluster where
  Name : String
  type : ClusterType
  Endpoints : List Net.IPNet
  Domains : List String
  Resolver : Option DnsResolver

/-- The `STATIC` arm of `Reconcile` (cluster.go lines 80-113): starting
from the emptied endpoint list, each literal is tried as a CIDR subnet,
then as a bare IP re-parsed with a `/32` or `/128` host prefix, and
appended on success; failures only skip the literal. -/
def staticLoop : List String → List Net.IPNet → List Net.IPNet
  | [], acc => acc
  | e :: rest, acc =>
    match Net.ParseCIDR e with
    | some n => staticLoop rest (acc ++ [n])
    | none =>
      let a := Net.ParseIP e
      if a = [] then staticLoop rest acc
      else
        let e2 := if Net.To4 a = [] then e ++ "/128" else e ++ "/32"
        match Net.ParseCIDR e2 with
        | some n2 => staticLoop rest (acc ++ [n2])
        | none => staticLoop rest acc

/-- The parse chain of one `STATIC` endpoint literal, as a function:
the subnet the literal contributes, if any. -/
def parseEndpoint (e : String) : Option Net.IPNet :=
  match Net.ParseCIDR e with
  | some n => some n
  | none =>
    let a := Net.ParseIP e
    if a = [] then none
    else
      let e2 := if Net.To4 a = [] then e ++ "/128" else e ++ "/32"
      Net.ParseCIDR e2

/-- The deletion loop of the `STRICT_DNS` arm (cluster.go lines 121-124):
for each deleted domain, `Resolver.Unregister` then `util.Remove`. -/
def unregLoop : List String → List String → ResolverState →
    List String × ResolverState
  | [], doms, st => (doms, st)
  | h :: t, doms, st => unregLoop t (Remove doms h) (UnregisterOp st h)

/-- The addition loop of the `STRICT_DNS` arm (cluster.go lines 126-130):
for each added domain, append to `Domains` only when `Register`
succeeds. -/
def regLoop (r : DnsResolver) : List String → List String → ResolverState →
    List String × ResolverState
  | [], doms, st => (doms, st)
  | h :: t, doms, st =>
    let (ok, st2) := RegisterOp r st h
    regLoop r t (if ok then doms ++ [h] else doms) st2

/-- `Cluster.Reconcile` (cluster.go lines 66-134): validate, overwrite the
type tag, then rebuild the endpoint set (`STATIC`) or incrementally
register/unregister domains (`STRICT_DNS`).  The `getD` fallback in the
type assignment is unreachable: `Validate` guarantees the literal is
recognized (Go discards the `NewClusterType` error at this point). -/
def Cluster.Reconcile (c : Cluster) (conf : ClusterConfig) (st : ResolverState) :
    Option ClusterError × Cluster × ResolverState :=
  match Validate conf with
  | some e => (some e, c, st)
  | none =>
    let c := { c with type := (NewClusterType conf.type).getD c.type }
    match c.type with
    | .static =>
      -- remove existing endpoints and start anew
      (none, { c with Endpoints := staticLoop conf.endpoints [] }, st)
    | .strictDNS =>
      match c.Resolver with
      | none => (some (ClusterError.noResolver c.Name), c, st)
      | some r =>
        let (deleted, added) := Diff c.Domains conf.endpoints
        let (doms, st) := unregLoop deleted c.Domains st
        let (doms, st) := regLoop r added doms st
        (none, { c with Domains := doms }, st)

/-- `NewCluster` (cluster.go lines 29-56): validate, build an empty cluster
and populate it through `Reconcile`; a `restartRequired` outcome of the
internal reconcile is tolerated, any other error aborts construction.  (The
Go-side failed cast of the `Config` interface cannot arise in the typed
embedding.) -/
def NewCluster (conf : ClusterConfig) (resolver : Option DnsResolver)
    (st : ResolverState) : Except ClusterError (Cluster × ResolverState) :=
  match Validate conf with
  | some e => Except.error e
  | none =>
    let c : Cluster :=
      { Name := conf.name, type := ClusterType.static, Endpoints := [],
        Domains := [], Resolver := resolver }
    match c.Reconcile conf st with
    | (some e, c2, st2) =>
      if e = ClusterError.restartRequired then Except.ok (c2, st2)
      else Except.error e
    | (none, c2, st2) => Except.ok (c2, st2)

/-- `Cluster.GetConfig` (cluster.go lines 143-161).  In the `STRICT_DNS`
arm the Go source executes `conf.Endpoints = sort.StringSlice(conf.Endpoints)`,
which is a slice-type conversion and not a sort, so the copied domain list
keeps its storage order. -/
def Cluster.GetConfig (c : Cluster) : ClusterConfig :=
  { name := c.Name, type := c.type.toStr,
    endpoints :=
      match c.type with
      | .static => c.Endpoints.map Net.IPNetToString
      | .strictDNS => c.Domains }

/-- `Cluster.Close` (cluster.go lines 164-177): `STATIC` does nothing;
`STRICT_DNS` unregisters every domain in `Domains` (which is not cleared).
The `none` resolver arm is unreachable with a non-empty `Domains`, since
only a cluster holding a resolver ever registers domains. -/
def Cluster.Close (c : Cluster) (st : ResolverState) :
    Option ClusterError × ResolverState :=
  match c.type with
  | .static => (none, st)
  | .strictDNS =>
    match c.Resolver with
    | none => (none, st)
    | some _ => (none, c.Domains.foldl UnregisterOp st)

/-- `Cluster.Route` (cluster.go lines 180-217), `STATIC` arm: scan the
subnets, first `Contains` match returns true. -/
def routeStatic (es : List Net.IPNet) (peer : List Nat) : Bool :=
  match es with
  | [] => false
  | e :: rest => if Net.Contains e peer then true else routeStatic rest peer

/-- `Cluster.Route`, `STRICT_DNS` arm: scan the domains; for each, look the
domain up (a lookup error is only logged) and scan the returned addresses
for an exact `IP.Equal` match. -/
def routeDNS (r : DnsResolver) (doms : List String) (peer : List Nat) : Bool :=
  match doms with
  | [] => false
  | d :: rest =>
    let hs := (r.lookup d).1
    if hs.any (fun n => Net.IPEqual n peer) then true else routeDNS r rest peer

/-- `Cluster.Route` (cluster.go lines 180-217).  A `STRICT_DNS` cluster
with no resolver cannot have domains (the Go code would dereference a nil
interface inside the loop); with an empty domain list the loop body never
runs and the function falls through to `false`. -/
def Cluster.Route (c : Cluster) (peer : List Nat) : Bool :=
  match c.type with
  | .static => routeStatic c.Endpoints peer
  | .strictDNS =>
    match c.Resolver with
    | none => false
    | some r => routeDNS r c.Domains peer

/-!
Helper lemmas about the loops of the embedding.
-/

theorem member_iff {l : List String} {x : String} :
    member l x = true ↔ x ∈ l := by
  simp only [member, List.any_eq_true, beq_iff_eq]
  constructor
  · rintro ⟨y, hy, rfl⟩; exact hy
  · intro hx; exact ⟨x, hx, rfl⟩

theorem routeStatic_iff (es : List Net.IPNet) (peer : List Nat) :
    routeStatic es peer = true ↔ ∃ n, n ∈ es ∧ Net.Contains n peer = true := by
  induction es with
  | nil => simp [routeStatic]
  | cons e rest ih =>
    by_cases h : Net.Contains e peer = true
    · simp [routeStatic, h]
    · simp only [routeStatic, if_neg h, ih, List.mem_cons]
      constructor
      · rintro ⟨n, hn, hc⟩; exact ⟨n, Or.inr hn, hc⟩
      · rintro ⟨n, hn | hn, hc⟩
        · exact absurd (hn ▸ hc) h
        · exact ⟨n, hn, hc⟩

theorem routeDNS_iff (r : DnsResolver) (doms : List String) (peer : List Nat) :
    routeDNS r doms peer = true ↔
      ∃ d, d ∈ doms ∧ ∃ a, a ∈ (r.lookup d).1 ∧ Net.IPEqual a peer = true := by
  induction doms with
  | nil => simp [routeDNS]
  | cons d rest ih =>
    by_cases h : (r.lookup d).1.any (fun n => Net.IPEqual n peer) = true
    · simp only [routeDNS, if_pos h, List.mem_cons, true_iff]
      rcases List.any_eq_true.1 h with ⟨a, ha, he⟩
      exact ⟨d, Or.inl rfl, a, ha, he⟩
    · simp only [routeDNS, if_neg h, ih, List.mem_cons]
      constructor
      · rintro ⟨x, hx, hm⟩; exact ⟨x, Or.inr hx, hm⟩
      · rintro ⟨x, hx | hx, a, ha, he⟩
        · exact absurd (List.any_eq_true.2 ⟨a, hx ▸ ha, he⟩) h
        · exact ⟨x, hx, a, ha, he⟩

theorem staticLoop_eq (es : List String) (acc : List Net.IPNet) :
    staticLoop es acc = acc ++ es.filterMap parseEndpoint := by
  induction es generalizing acc with
  | nil => simp [staticLoop]
  | cons e rest ih =>
    simp only [staticLoop, parseEndpoint, List.filterMap_cons]
    cases hc : Net.ParseCIDR e with
    | some n => simp [ih]
    | none =>
      by_cases ha : Net.ParseIP e = []
      · simp [ha, ih]
      · simp only [if_neg ha]
        cases hc2 : Net.ParseCIDR (if Net.To4 (Net.ParseIP e) = [] then e ++ "/128" else e ++ "/32") with
        | some n2 => simp [hc2, ih]
        | none => simp [hc2, ih]

theorem unregLoop_eq (del : List String) (doms : List String) (st : ResolverState) :
    unregLoop del doms st =
      (doms.filter (fun d => decide (d ∉ del)),
       { st with
         registered := st.registered.filter (fun x => decide (x ∉ del))
         unregCalls := st.unregCalls ++ del }) := by
  induction del generalizing doms st with
  | nil => simp [unregLoop]
  | cons h t ih =>
    simp only [unregLoop, Remove, UnregisterOp, ih, List.filter_filter,
      List.append_assoc, List.singleton_append]
    have hfun : (fun (a : String) => decide (a ∉ t) && decide (a ≠ h)) =
        (fun a : String => decide (a ∉ h :: t)) := by
      funext a
      by_cases h1 : a = h <;> by_cases h2 : a ∈ t <;> simp [h1, h2]
    rw [hfun]

theorem regLoop_cons (r : DnsResolver) (h : String) (t doms : List String)
    (st : ResolverState) :
    regLoop r (h :: t) doms st =
      if r.regOK h then
        regLoop r t (doms ++ [h])
          { st with
            regCalls := st.regCalls ++ [h]
            registered := if st.registered.contains h then st.registered
              else st.registered ++ [h] }
      else regLoop r t doms { st with regCalls := st.regCalls ++ [h] } := by
  simp only [regLoop, RegisterOp]
  cases hr : r.regOK h <;> simp [hr]

theorem regLoop_fst (r : DnsResolver) (add doms : List String) (st : ResolverState) :
    (regLoop r add doms st).1 = doms ++ add.filter r.regOK := by
  induction add generalizing doms st with
  | nil => simp [regLoop]
  | cons h t ih =>
    rw [regLoop_cons]
    by_cases hr : r.regOK h = true
    · rw [if_pos hr, ih, List.filter_cons_of_pos hr, List.append_assoc,
        List.singleton_append]
    · rw [if_neg hr, ih, List.filter_cons_of_neg hr]

theorem regLoop_regCalls (r : DnsResolver) (add doms : List String) (st : ResolverState) :
    (regLoop r add doms st).2.regCalls = st.regCalls ++ add := by
  induction add generalizing doms st with
  | nil => simp [regLoop]
  | cons h t ih =>
    rw [regLoop_cons]
    by_cases hr : r.regOK h = true
    · rw [if_pos hr, ih, List.append_assoc, List.singleton_append]
    · rw [if_neg hr, ih, List.append_assoc, List.singleton_append]

theorem regLoop_unregCalls (r : DnsResolver) (add doms : List String) (st : ResolverState) :
    (regLoop r add doms st).2.unregCalls = st.unregCalls := by
  induction add generalizing doms st with
  | nil => simp [regLoop]
  | cons h t ih =>
    rw [regLoop_cons]
    by_cases hr : r.regOK h = true
    · rw [if_pos hr, ih]
    · rw [if_neg hr, ih]

theorem regLoop_mem_registered (r : DnsResolver) (add doms : List String)
    (st : ResolverState) (x : String) :
    x ∈ (regLoop r add doms st).2.registered ↔
      x ∈ st.registered ∨ (x ∈ add ∧ r.regOK x = true) := by
  induction add generalizing doms st with
  | nil => simp [regLoop]
  | cons h t ih =>
    rw [regLoop_cons]
    by_cases hr : r.regOK h = true
    · rw [if_pos hr, ih]
      by_cases hc : st.registered.contains h = true
      · have hmem : h ∈ st.registered := by
          simpa [List.contains, List.elem_iff] using hc
        rw [if_pos hc]
        simp only [List.mem_cons]
        constructor
        · rintro (hx | ⟨hx, hok⟩)
          · exact Or.inl hx
          · exact Or.inr ⟨Or.inr hx, hok⟩
        · rintro (hx | ⟨rfl | hx, hok⟩)
          · exact Or.inl hx
          · exact Or.inl hmem
          · exact Or.inr ⟨hx, hok⟩
      · rw [if_neg hc]
        simp only [List.mem_append, List.mem_cons, List.not_mem_nil, or_false]
        constructor
        · rintro ((hx | rfl) | ⟨hx, hok⟩)
          · exact Or.inl hx
          · exact Or.inr ⟨Or.inl rfl, hr⟩
          · exact Or.inr ⟨Or.inr hx, hok⟩
        · rintro (hx | ⟨rfl | hx, hok⟩)
          · exact Or.inl (Or.inl hx)
          · exact Or.inl (Or.inr rfl)
          · exact Or.inr ⟨hx, hok⟩
    · rw [if_neg hr, ih]
      simp only [List.mem_cons]
      constructor
      · rintro (hx | ⟨hx, hok⟩)
        · exact Or.inl hx
        · exact Or.inr ⟨Or.inr hx, hok⟩
      · rintro (hx | ⟨rfl | hx, hok⟩)
        · exact Or.inl hx
        · exact absurd hok hr
        · exact Or.inr ⟨hx, hok⟩

theorem regLoop_registered_nodup (r : DnsResolver) (add doms : List String)
    (st : ResolverState) (hnd : st.registered.Nodup) :
    (regLoop r add doms st).2.registered.Nodup := by
  induction add generalizing doms st with
  | nil => simpa [regLoop]
  | cons h t ih =>
    rw [regLoop_cons]
    by_cases hr : r.regOK h = true
    · rw [if_pos hr]
      by_cases hc : st.registered.contains h = true
      · rw [if_pos hc]; exact ih _ _ hnd
      · rw [if_neg hc]
        refine ih _ _ ?_
        refine List.Nodup.append hnd (List.nodup_singleton h) ?_
        intro a ha hb
        rcases List.mem_singleton.1 hb with rfl
        have hnc : a ∉ st.registered := by
          simpa [List.contains, List.elem_iff] using hc
        exact hnc ha
    · rw [if_neg hr]
      exact ih _ _ hnd

theorem regLoop_registered_allFail (r : DnsResolver) (add doms : List String)
    (st : ResolverState) (hfail : ∀ a ∈ add, r.regOK a = false) :
    (regLoop r add doms st).2.registered = st.registered := by
  induction add generalizing doms st with
  | nil => simp [regLoop]
  | cons h t ih =>
    have hh : r.regOK h = false := hfail h (List.mem_cons_self h t)
    have hcond : ¬ (r.regOK h = true) := by simp [hh]
    rw [regLoop_cons, if_neg hcond]
    exact ih _ _ (fun a ha => hfail a (List.mem_cons_of_mem h ha))

theorem reconcile_validate_err (c : Cluster) (conf : ClusterConfig)
    (st : ResolverState) (e : ClusterError) (h : Validate conf = some e) :
    c.Reconcile conf st = (some e, c, st) := by
  simp [Cluster.Reconcile, h]

theorem reconcile_static_eq (c : Cluster) (conf : ClusterConfig)
    (st : ResolverState) (hv : Validate conf = none)
    (ht : NewClusterType conf.type = some ClusterType.static) :
    c.Reconcile conf st =
      (none,
       { c with
         type := ClusterType.static
         Endpoints := staticLoop conf.endpoints [] },
       st) := by
  simp [Cluster.Reconcile, hv, ht]

theorem reconcile_dns_noresolver (c : Cluster) (conf : ClusterConfig)
    (st : ResolverState) (hv : Validate conf = none)
    (ht : NewClusterType conf.type = some ClusterType.strictDNS)
    (hr : c.Resolver = none) :
    c.Reconcile conf st =
      (some (ClusterError.noResolver c.Name),
       { c with type := ClusterType.strictDNS }, st) := by
  simp [Cluster.Reconcile, hv, ht, hr]

theorem reconcile_dns_eq (c : Cluster) (conf : ClusterConfig)
    (st : ResolverState) (r : DnsResolver) (hv : Validate conf = none)
    (ht : NewClusterType conf.type = some ClusterType.strictDNS)
    (hr : c.Resolver = some r) :
    c.Reconcile conf st =
      (none,
       { c with
         type := ClusterType.strictDNS
         Domains := (regLoop r (conf.endpoints.filter (fun x => ¬ member c.Domains x))
           (unregLoop (c.Domains.filter (fun x => ¬ member conf.endpoints x)) c.Domains st).1
           (unregLoop (c.Domains.filter (fun x => ¬ member conf.endpoints x)) c.Domains st).2).1 },
       (regLoop r (conf.endpoints.filter (fun x => ¬ member c.Domains x))
         (unregLoop (c.Domains.filter (fun x => ¬ member conf.endpoints x)) c.Domains st).1
         (unregLoop (c.Domains.filter (fun x => ¬ member conf.endpoints x)) c.Domains st).2).2) := by
  simp [Cluster.Reconcile, hv, ht, hr, Diff]

/-!
Claim theorems and their witnesses.
-/

/-- Claim C1: for a `STATIC` cluster, `Route(peer)` is true iff `peer`
falls inside at least one configured subnet in `Endpoints` (plain
membership; the scan short-circuits on the first match), and a cluster
with an empty endpoint set returns false for every peer. -/
theorem C1_route_static (c : Cluster) (peer : List Nat)
    (h : c.type = ClusterType.static) :
    (c.Route peer = true ↔ ∃ n, n ∈ c.Endpoints ∧ Net.Contains n peer = true) ∧
    (c.Endpoints = [] → c.Route peer = false) := by
  have hroute : c.Route peer = routeStatic c.Endpoints peer := by
    simp [Cluster.Route, h]
  constructor
  · rw [hroute]; exact routeStatic_iff _ _
  · intro he; rw [hroute, he]; rfl

def stEmpty : ResolverState := { registered := [], regCalls := [], unregCalls := [] }

def c1w : Cluster :=
  { Name := "static-cluster", type := ClusterType.static,
    Endpoints := [{ ip := [10, 0, 0, 0], mask := [255, 255, 255, 0] }],
    Domains := [], Resolver := none }

/-- Witness for C1 on the spec's own example: endpoints `10.0.0.0/24`,
`Route(10.0.0.5) = true`, `Route(10.0.1.5) = false`. -/
theorem C1_witness :
    (c1w.Route [10, 0, 0, 5] = true ↔
      ∃ n, n ∈ c1w.Endpoints ∧ Net.Contains n [10, 0, 0, 5] = true) ∧
    c1w.Route [10, 0, 0, 5] = true ∧ c1w.Route [10, 0, 1, 5] = false :=
  ⟨(C1_route_static c1w [10, 0, 0, 5] rfl).1, by decide, by decide⟩

/-- Claim C2: for a `STRICT_DNS` cluster, `Route(peer)` is true iff some
domain in `Domains` has a lookup whose returned address set contains an
address `IP.Equal` to the peer; the scan covers every domain, so a failed
lookup on one domain (which contributes its returned address set, for the
conventional erroring lookup the empty set) never prevents a match through
another domain. -/
theorem C2_route_dns (c : Cluster) (r : DnsResolver) (peer : List Nat)
    (h : c.type = ClusterType.strictDNS) (hr : c.Resolver = some r) :
    c.Route peer = true ↔
      ∃ d, d ∈ c.Domains ∧ ∃ a, a ∈ (r.lookup d).1 ∧ Net.IPEqual a peer = true := by
  have hroute : c.Route peer = routeDNS r c.Domains peer := by
    simp [Cluster.Route, h, hr]
  rw [hroute]
  exact routeDNS_iff _ _ _

def r2w : DnsResolver :=
  { regOK := fun _ => true,
    lookup := fun d =>
      if d = "bad.example.com" then ([], true)
      else ([[0, 0, 0, 0, 0, 0, 0, 0, 0, 0, 255, 255, 1, 2, 3, 4]], false) }

def c2w : Cluster :=
  { Name := "dns-cluster", type := ClusterType.strictDNS, Endpoints := [],
    Domains := ["bad.example.com", "good.example.com"], Resolver := some r2w }

/-- Witness for C2: the first domain's lookup errors with no addresses,
the second resolves to `1.2.3.4` (in mapped form); the peer `1.2.3.4`
still routes. -/
theorem C2_witness :
    (c2w.Route [1, 2, 3, 4] = true ↔
      ∃ d, d ∈ c2w.Domains ∧
        ∃ a, a ∈ (r2w.lookup d).1 ∧ Net.IPEqual a [1, 2, 3, 4] = true) ∧
    (r2w.lookup "bad.example.com").2 = true ∧
    c2w.Route [1, 2, 3, 4] = true ∧ c2w.Route [9, 9, 9, 9] = false :=
  ⟨C2_route_dns c2w r2w [1, 2, 3, 4] rfl rfl, by decide, by decide, by decide⟩

/-- Claim C3: reconciling a `STATIC` cluster discards the previous subnet
set and rebuilds `Endpoints` as exactly the successful parses of the
requested literals under the CIDR / bare-IP-plus-host-prefix chain
(`parseEndpoint`); malformed literals are skipped and never make
`Reconcile` return an error. -/
theorem C3_reconcile_static (c : Cluster) (conf : ClusterConfig)
    (st : ResolverState) (hn : conf.name ≠ "") (ht : conf.type = "STATIC") :
    c.Reconcile conf st =
      (none,
       { c with
         type := ClusterType.static
         Endpoints := conf.endpoints.filterMap parseEndpoint },
       st) := by
  have ht2 : NewClusterType conf.type = some ClusterType.static := by
    simp [NewClusterType, ht]
  have hv : Validate conf = none := by
    simp [Validate, hn, ht2]
  rw [reconcile_static_eq c conf st hv ht2, staticLoop_eq, List.nil_append]

def c3w : Cluster :=
  { Name := "c", type := ClusterType.static,
    Endpoints := [{ ip := [1, 1, 1, 1], mask := [255, 255, 255, 255] }],
    Domains := [], Resolver := none }

def conf3w : ClusterConfig :=
  { name := "c", type := "STATIC",
    endpoints := ["10.0.0.0/24", "not-an-ip", "192.168.1.1", "::1"] }

/-- Witness for C3: one malformed literal among valid ones; the reconcile
succeeds, the malformed entry is absent, the valid CIDR, the bare IPv4
(as a `/32` host subnet) and the bare IPv6 (as `/128`) are all present,
and the old endpoint (`1.1.1.1/32`) is gone. -/
theorem C3_witness :
    c3w.Reconcile conf3w stEmpty =
      (none,
       { c3w with
         type := ClusterType.static
         Endpoints := conf3w.endpoints.filterMap parseEndpoint },
       stEmpty) ∧
    conf3w.endpoints.filterMap parseEndpoint =
      [{ ip := [10, 0, 0, 0], mask := [255, 255, 255, 0] },
       { ip := [192, 168, 1, 1], mask := [255, 255, 255, 255] },
       { ip := List.replicate 15 0 ++ [1], mask := List.replicate 16 255 }] :=
  ⟨C3_reconcile_static c3w conf3w stEmpty (by decide) rfl, by decide⟩

/-- Claim C4: reconciling a `STRICT_DNS` cluster from current domain set D
to requested list R unregisters exactly the domains in D outside R (and
drops them from `Domains`), attempts registration exactly for the domains
of R outside D (keeping only the successes), leaves the domains in both
alone, yields a `Domains` set-equal to R minus the failed registrations,
and never returns an error for registration failures. -/
theorem C4_reconcile_dns (c : Cluster) (conf : ClusterConfig)
    (st : ResolverState) (r : DnsResolver) (hn : conf.name ≠ "")
    (ht : conf.type = "STRICT_DNS") (hr : c.Resolver = some r) :
    (c.Reconcile conf st).1 = none ∧
    (c.Reconcile conf st).2.1.Domains =
      c.Domains.filter (fun d => member conf.endpoints d) ++
        (conf.endpoints.filter (fun d => ¬ member c.Domains d)).filter r.regOK ∧
    (∀ d, d ∈ (c.Reconcile conf st).2.1.Domains ↔
      d ∈ conf.endpoints ∧ (d ∈ c.Domains ∨ r.regOK d = true)) ∧
    (c.Reconcile conf st).2.2.unregCalls =
      st.unregCalls ++ c.Domains.filter (fun d => ¬ member conf.endpoints d) ∧
    (c.Reconcile conf st).2.2.regCalls =
      st.regCalls ++ conf.endpoints.filter (fun d => ¬ member c.Domains d) := by
  have ht2 : NewClusterType conf.type = some ClusterType.strictDNS := by
    simp [NewClusterType, ht]
  have hv : Validate conf = none := by
    simp [Validate, hn, ht2]
  rw [reconcile_dns_eq c conf st r hv ht2 hr, unregLoop_eq]
  have hfilter :
      c.Domains.filter
        (fun d => decide (d ∉ c.Domains.filter (fun x => ¬ member conf.endpoints x))) =
      c.Domains.filter (fun d => member conf.endpoints d) := by
    apply List.filter_congr
    intro d hd
    by_cases hm : member conf.endpoints d = true
    · have hnd : d ∉ c.Domains.filter (fun x => ¬ member conf.endpoints x) := by
        intro hdel
        have := (List.mem_filter.1 hdel).2
        simp [hm] at this
      simp [hnd, hm]
    · have hdmem : d ∈ c.Domains.filter (fun x => ¬ member conf.endpoints x) :=
        List.mem_filter.2 ⟨hd, by simp [hm]⟩
      simp [hdmem, Bool.eq_false_iff.2 hm, hd]
  have hdoms :
      (regLoop r (conf.endpoints.filter (fun x => ¬ member c.Domains x))
        (c.Domains.filter
          (fun d => decide (d ∉ c.Domains.filter (fun x => ¬ member conf.endpoints x))))
        { st with
          registered := st.registered.filter
            (fun x => decide (x ∉ c.Domains.filter (fun x => ¬ member conf.endpoints x)))
          unregCalls := st.unregCalls ++
            c.Domains.filter (fun x => ¬ member conf.endpoints x) }).1 =
      c.Domains.filter (fun d => member conf.endpoints d) ++
        (conf.endpoints.filter (fun d => ¬ member c.Domains d)).filter r.regOK := by
    rw [regLoop_fst, hfilter]
  refine ⟨rfl, hdoms, ?_, ?_, ?_⟩
  · intro d
    rw [show ((none, _, _) :
        Option ClusterError × Cluster × ResolverState).2.1.Domains = _ from congrArg Cluster.Domains rfl]
    rw [hdoms]
    simp only [List.mem_append, List.mem_filter, member_iff, decide_eq_true_eq]
    constructor
    · rintro (⟨hD, hR⟩ | ⟨⟨hR, hD⟩, hok⟩)
      · exact ⟨hR, Or.inl hD⟩
      · exact ⟨hR, Or.inr hok⟩
    · rintro ⟨hR, hD | hok⟩
      · exact Or.inl ⟨hD, hR⟩
      · by_cases hD2 : d ∈ c.Domains
        · exact Or.inl ⟨hD2, hR⟩
        · exact Or.inr ⟨⟨hR, hD2⟩, hok⟩
  · rw [show ((none, _, _) :
        Option ClusterError × Cluster × ResolverState).2.2 = _ from rfl]
    rw [regLoop_unregCalls]
  · rw [show ((none, _, _) :
        Option ClusterError × Cluster × ResolverState).2.2 = _ from rfl]
    rw [regLoop_regCalls]

def rAllOK : DnsResolver := { regOK := fun _ => true, lookup := fun _ => ([], false) }

def c4w : Cluster :=
  { Name := "c", type := ClusterType.strictDNS, Endpoints := [],
    Domains := ["a.com", "b.com"], Resolver := some rAllOK }

def st4w : ResolverState :=
  { registered := ["a.com", "b.com"], regCalls := ["a.com", "b.com"],
    unregCalls := [] }

/-- Witness for C4 on the spec's example: from domains {a.com, b.com} to
{b.com, c.com}; a.com is unregistered, b.com is not re-registered (the
register trace gains only c.com), and the resulting set is
{b.com, c.com}. -/
theorem C4_witness :
    (∀ d, d ∈ (c4w.Reconcile ⟨"c", "STRICT_DNS", ["b.com", "c.com"]⟩ st4w).2.1.Domains ↔
      d ∈ ["b.com", "c.com"] ∧ (d ∈ c4w.Domains ∨ rAllOK.regOK d = true)) ∧
    (c4w.Reconcile ⟨"c", "STRICT_DNS", ["b.com", "c.com"]⟩ st4w).2.1.Domains =
      ["b.com", "c.com"] ∧
    (c4w.Reconcile ⟨"c", "STRICT_DNS", ["b.com", "c.com"]⟩ st4w).2.2.unregCalls =
      ["a.com"] ∧
    (c4w.Reconcile ⟨"c", "STRICT_DNS", ["b.com", "c.com"]⟩ st4w).2.2.regCalls =
      ["a.com", "b.com", "c.com"] ∧
    (c4w.Reconcile ⟨"c", "STRICT_DNS", ["b.com", "c.com"]⟩ st4w).2.2.registered =
      ["b.com", "c.com"] :=
  ⟨(C4_reconcile_dns c4w ⟨"c", "STRICT_DNS", ["b.com", "c.com"]⟩ st4w rAllOK
      (by decide) rfl rfl).2.2.1,
   by decide, by decide, by decide, by decide⟩

def c5base : Cluster :=
  { Name := "c", type := ClusterType.strictDNS, Endpoints := [],
    Domains := [], Resolver := some rAllOK }

def c5s1 : Option ClusterError × Cluster × ResolverState :=
  c5base.Reconcile ⟨"c", "STRICT_DNS", ["b.com"]⟩ stEmpty

def c5s2 : Option ClusterError × Cluster × ResolverState :=
  c5s1.2.1.Reconcile ⟨"c", "STRICT_DNS", ["a.com", "b.com"]⟩ c5s1.2.2

/-- Claim C5, failing input: a `STRICT_DNS` cluster whose domains were
registered in the order b.com, a.com (reconcile to {b.com}, then to
{a.com, b.com}).  `GetConfig` copies the storage order b.com, a.com —
`sort.StringSlice(conf.Endpoints)` in cluster.go line 158 is a slice-type
conversion, not a sort — while the lexicographically sorted form of the
registered set is [a.com, b.com]. -/
theorem C5_getconfig_unsorted :
    c5s1.1 = none ∧ c5s2.1 = none ∧
    (c5s2.2.1.GetConfig).endpoints = ["b.com", "a.com"] ∧
    c5s2.2.2.registered = ["b.com", "a.com"] ∧
    ("a.com".data < "b.com".data) ∧
    (c5s2.2.1.GetConfig).endpoints ≠ ["a.com", "b.com"] :=
  ⟨rfl, rfl, by decide, by decide, by decide, by decide⟩

theorem notMemConsFun (h : String) (t : List String) :
    (fun (a : String) => decide (a ∉ t) && decide (a ≠ h)) =
      (fun a : String => decide (a ∉ h :: t)) := by
  funext a
  by_cases h1 : a = h <;> by_cases h2 : a ∈ t <;> simp [h1, h2]

theorem foldlUnreg_unregCalls (l : List String) (st : ResolverState) :
    (l.foldl UnregisterOp st).unregCalls = st.unregCalls ++ l := by
  induction l generalizing st with
  | nil => simp
  | cons h t ih =>
    rw [List.foldl_cons, ih]
    simp [UnregisterOp]

theorem foldlUnreg_registered (l : List String) (st : ResolverState) :
    (l.foldl UnregisterOp st).registered =
      st.registered.filter (fun x => decide (x ∉ l)) := by
  induction l generalizing st with
  | nil => simp
  | cons h t ih =>
    rw [List.foldl_cons, ih]
    simp only [UnregisterOp, List.filter_filter, notMemConsFun]

/-- Claim C6: `Close` always returns nil; on a `STATIC` cluster it does
nothing; on a `STRICT_DNS` cluster it unregisters every domain in
`Domains`, each exactly once (when `Domains` is duplicate-free, as the
reconcile logic maintains); and a second `Close` is safe: it also returns
nil and leaves the resolver's registration set where the first left it. -/
theorem C6_close (c : Cluster) (st : ResolverState) :
    (c.Close st).1 = none ∧
    (c.type = ClusterType.static → (c.Close st).2 = st) ∧
    (c.type = ClusterType.strictDNS → c.Resolver.isSome = true →
      (c.Close st).2.unregCalls = st.unregCalls ++ c.Domains) ∧
    (c.type = ClusterType.strictDNS → c.Resolver.isSome = true →
      c.Domains.Nodup → ∀ d ∈ c.Domains,
        (c.Close st).2.unregCalls.count d = st.unregCalls.count d + 1) ∧
    ((c.Close (c.Close st).2).1 = none ∧
      (c.Close (c.Close st).2).2.registered = (c.Close st).2.registered) := by
  obtain ⟨n, ty, es, ds, rs⟩ := c
  cases ty with
  | static =>
    refine ⟨rfl, fun _ => rfl, ?_, ?_, rfl, rfl⟩
    · intro h; simp at h
    · intro h; simp at h
  | strictDNS =>
    cases rs with
    | none =>
      refine ⟨rfl, ?_, ?_, ?_, rfl, rfl⟩
      · intro h; simp at h
      · intro _ hs; simp at hs
      · intro _ hs; simp at hs
    | some r =>
      refine ⟨rfl, ?_, ?_, ?_, rfl, ?_⟩
      · intro h; simp at h
      · intro _ _
        exact foldlUnreg_unregCalls ds st
      · intro _ _ hnd d hd
        show (ds.foldl UnregisterOp st).unregCalls.count d = st.unregCalls.count d + 1
        rw [foldlUnreg_unregCalls, List.count_append,
          List.count_eq_one_of_mem hnd hd]
      · show (ds.foldl UnregisterOp (ds.foldl UnregisterOp st)).registered =
          (ds.foldl UnregisterOp st).registered
        rw [foldlUnreg_registered, foldlUnreg_registered, List.filter_filter]
        congr 1
        funext a
        rw [Bool.and_self]

def c6w : Cluster :=
  { Name := "c", type := ClusterType.strictDNS, Endpoints := [],
    Domains := ["a.com", "b.com"], Resolver := some rAllOK }

def st6w : ResolverState :=
  { registered := ["a.com", "b.com"], regCalls := ["a.com", "b.com"],
    unregCalls := [] }

/-- Witness for C6: with registered domains a.com and b.com, one `Close`
unregisters each exactly once; closing again returns nil and leaves the
registration set unchanged. -/
theorem C6_witness :
    (c6w.Close st6w).1 = none ∧
    (c6w.Close st6w).2.unregCalls.count "a.com" =
      st6w.unregCalls.count "a.com" + 1 ∧
    (c6w.Close st6w).2.unregCalls.count "b.com" =
      st6w.unregCalls.count "b.com" + 1 ∧
    (c6w.Close (c6w.Close st6w).2).2.registered = (c6w.Close st6w).2.registered :=
  ⟨(C6_close c6w st6w).1,
   (C6_close c6w st6w).2.2.2.1 rfl rfl (by decide) "a.com" (by decide),
   (C6_close c6w st6w).2.2.2.1 rfl rfl (by decide) "b.com" (by decide),
   (C6_close c6w st6w).2.2.2.2.2⟩

theorem keepFilterEq (D R : List String) :
    D.filter (fun d => decide (d ∉ D.filter (fun x => ¬ member R x))) =
      D.filter (fun d => member R d) := by
  apply List.filter_congr
  intro d hd
  by_cases hm : member R d = true
  · have hnd : d ∉ D.filter (fun x => ¬ member R x) := by
      intro hdel
      have := (List.mem_filter.1 hdel).2
      simp [hm] at this
    simp [hnd, hm]
  · have hdmem : d ∈ D.filter (fun x => ¬ member R x) :=
      List.mem_filter.2 ⟨hd, by simp [hm]⟩
    simp [hdmem, Bool.eq_false_iff.2 hm, hd]

theorem dnsParts (c : Cluster) (conf : ClusterConfig) (st : ResolverState)
    (r : DnsResolver) (hv : Validate conf = none)
    (ht : NewClusterType conf.type = some ClusterType.strictDNS)
    (hr : c.Resolver = some r) :
    c.Reconcile conf st =
      (none,
       { c with
         type := ClusterType.strictDNS
         Domains := c.Domains.filter (fun d => member conf.endpoints d) ++
           (conf.endpoints.filter (fun d => ¬ member c.Domains d)).filter r.regOK },
       (regLoop r (conf.endpoints.filter (fun x => ¬ member c.Domains x))
         (c.Domains.filter (fun d => member conf.endpoints d))
         { st with
           registered := st.registered.filter
             (fun x => decide (x ∉ c.Domains.filter (fun y => ¬ member conf.endpoints y)))
           unregCalls := st.unregCalls ++
             c.Domains.filter (fun y => ¬ member conf.endpoints y) }).2) := by
  rw [reconcile_dns_eq c conf st r hv ht hr]
  simp only [unregLoop_eq, keepFilterEq, regLoop_fst]

theorem dnsDomainsMem (c : Cluster) (conf : ClusterConfig) (st : ResolverState)
    (r : DnsResolver) (hv : Validate conf = none)
    (ht : NewClusterType conf.type = some ClusterType.strictDNS)
    (hr : c.Resolver = some r) (d : String) :
    d ∈ (c.Reconcile conf st).2.1.Domains ↔
      (d ∈ c.Domains ∧ d ∈ conf.endpoints) ∨
      (d ∈ conf.endpoints ∧ d ∉ c.Domains ∧ r.regOK d = true) := by
  rw [dnsParts c conf st r hv ht hr]
  simp only [List.mem_append, List.mem_filter, member_iff, decide_eq_true_eq]
  tauto

theorem dnsRegisteredMem (c : Cluster) (conf : ClusterConfig) (st : ResolverState)
    (r : DnsResolver) (hv : Validate conf = none)
    (ht : NewClusterType conf.type = some ClusterType.strictDNS)
    (hr : c.Resolver = some r) (x : String) :
    x ∈ (c.Reconcile conf st).2.2.registered ↔
      (x ∈ st.registered ∧ (x ∉ c.Domains ∨ x ∈ conf.endpoints)) ∨
      (x ∈ conf.endpoints ∧ x ∉ c.Domains ∧ r.regOK x = true) := by
  rw [dnsParts c conf st r hv ht hr]
  rw [show ((none, _, _) :
      Option ClusterError × Cluster × ResolverState).2.2 = _ from rfl]
  rw [regLoop_mem_registered]
  simp only [List.mem_filter, member_iff]
  by_cases h1 : x ∈ st.registered <;> by_cases h2 : x ∈ c.Domains <;>
    by_cases h3 : x ∈ conf.endpoints <;> by_cases h4 : r.regOK x = true <;>
    simp [h1, h2, h3, h4]

/-- The Domains/Resolver invariant of spec §3: the cluster's `Domains` list
is duplicate-free and coincides, as a set, with the domains currently
registered with the resolver on behalf of this cluster. -/
def ClusterResolverInv (c : Cluster) (st : ResolverState) : Prop :=
  c.Domains.Nodup ∧ st.registered.Nodup ∧ (∀ d, d ∈ c.Domains ↔ d ∈ st.registered)

theorem reconcile_preserves_inv (c : Cluster) (conf : ClusterConfig)
    (st : ResolverState) (hinv : ClusterResolverInv c st)
    (hnd : conf.endpoints.Nodup) :
    ClusterResolverInv (c.Reconcile conf st).2.1 (c.Reconcile conf st).2.2 := by
  obtain ⟨hnd1, hnd2, hmem⟩ := hinv
  cases hv : Validate conf with
  | some e =>
    rw [reconcile_validate_err c conf st e hv]
    exact ⟨hnd1, hnd2, hmem⟩
  | none =>
    have hex : ∃ t, NewClusterType conf.type = some t := by
      cases h : NewClusterType conf.type with
      | none =>
        exfalso
        by_cases hn : conf.name = ""
        · simp [Validate, hn] at hv
        · simp [Validate, hn, h] at hv
      | some t => exact ⟨t, rfl⟩
    obtain ⟨t, ht⟩ := hex
    cases t with
    | static =>
      rw [reconcile_static_eq c conf st hv ht]
      exact ⟨hnd1, hnd2, hmem⟩
    | strictDNS =>
      cases hres : c.Resolver with
      | none =>
        rw [reconcile_dns_noresolver c conf st hv ht hres]
        exact ⟨hnd1, hnd2, hmem⟩
      | some r =>
        refine ⟨?_, ?_, ?_⟩
        · rw [dnsParts c conf st r hv ht hres]
          refine List.Nodup.append (hnd1.filter _) ((hnd.filter _).filter _) ?_
          intro a ha hb
          have haD : a ∈ c.Domains := (List.mem_filter.1 ha).1
          have hbD := (List.mem_filter.1 (List.mem_filter.1 hb).1).2
          have hnd3 : a ∉ c.Domains := by simpa [member_iff] using hbD
          exact hnd3 haD
        · rw [dnsParts c conf st r hv ht hres]
          exact regLoop_registered_nodup r _ _ _ (hnd2.filter _)
        · intro d
          rw [dnsDomainsMem c conf st r hv ht hres d,
            dnsRegisteredMem c conf st r hv ht hres d]
          have hd := hmem d
          tauto

/-- Claim C7 (amended): the invariant "`Domains` is duplicate-free and
set-equal to the resolver registrations held for this cluster" is
established by `NewCluster` (from a state with no registrations) and
preserved by every `Reconcile` (with duplicate-free endpoint lists),
including type-changing ones; `Close` deliberately tears it down,
unregistering the domains without clearing `Domains`, since the object is
then discarded. -/
theorem C7_inv_amended (c : Cluster) (conf : ClusterConfig) (st : ResolverState)
    (hinv : ClusterResolverInv c st) (hnd : conf.endpoints.Nodup) :
    ClusterResolverInv (c.Reconcile conf st).2.1 (c.Reconcile conf st).2.2 ∧
    (∀ res out, st.registered = [] →
      NewCluster conf res st = Except.ok out →
        ClusterResolverInv out.1 out.2) := by
  refine ⟨reconcile_preserves_inv c conf st hinv hnd, ?_⟩
  intro res out hreg hok
  unfold NewCluster at hok
  cases hv : Validate conf with
  | some e => simp [hv] at hok
  | none =>
    simp only [hv] at hok
    have hinv0 : ClusterResolverInv
        { Name := conf.name, type := ClusterType.static, Endpoints := [],
          Domains := [], Resolver := res } st :=
      ⟨List.nodup_nil, hreg ▸ List.nodup_nil, fun d => by simp [hreg]⟩
    have hpres := reconcile_preserves_inv
      { Name := conf.name, type := ClusterType.static, Endpoints := [],
        Domains := [], Resolver := res } conf st hinv0 hnd
    rcases hrec : Cluster.Reconcile
        { Name := conf.name, type := ClusterType.static, Endpoints := [],
          Domains := [], Resolver := res } conf st with ⟨eopt, c2, st2⟩
    rw [hrec] at hok hpres
    cases eopt with
    | some e =>
      by_cases he : e = ClusterError.restartRequired
      · simp only [he, if_pos rfl] at hok
        cases hok
        exact hpres
      · simp [he] at hok
    | none =>
      cases hok
      exact hpres

def c7x : Cluster :=
  { Name := "c", type := ClusterType.strictDNS, Endpoints := [],
    Domains := ["example.com"], Resolver := some rAllOK }

def st7x : ResolverState :=
  { registered := ["example.com"], regCalls := ["example.com"],
    unregCalls := [] }

/-- Counterexample to claim C7 as stated: the invariant is not preserved
by `Close`.  The cluster built by `NewCluster` for the single domain
example.com satisfies the invariant; after `Close`, the resolver holds no
registration while `Domains` still lists example.com, so the `Domains`
list no longer equals the registered set. -/
theorem C7_counterexample :
    NewCluster ⟨"c", "STRICT_DNS", ["example.com"]⟩ (some rAllOK) stEmpty =
      Except.ok (c7x, st7x) ∧
    ClusterResolverInv c7x st7x ∧
    ¬ ClusterResolverInv c7x (c7x.Close st7x).2 := by
  refine ⟨rfl, ⟨List.nodup_singleton _, List.nodup_singleton _, fun d => Iff.rfl⟩, ?_⟩
  intro h
  have h1 : "example.com" ∈ c7x.Domains := List.mem_singleton.2 rfl
  have h2 := (h.2.2 "example.com").1 h1
  have h3 : (c7x.Close st7x).2.registered = [] := by decide
  rw [h3] at h2
  exact List.not_mem_nil _ h2

def c7b : Cluster :=
  { Name := "c", type := ClusterType.strictDNS, Endpoints := [],
    Domains := [], Resolver := some rAllOK }

/-- Witness for C7 (amended) at a concrete input: reconciling the empty
`STRICT_DNS` cluster to the domain set {b.com} preserves the invariant,
and the resulting domain list is exactly [b.com]. -/
theorem C7_witness :
    (ClusterResolverInv
      (c7b.Reconcile ⟨"c", "STRICT_DNS", ["b.com"]⟩ stEmpty).2.1
      (c7b.Reconcile ⟨"c", "STRICT_DNS", ["b.com"]⟩ stEmpty).2.2 ∧
     (∀ res out, stEmpty.registered = [] →
       NewCluster ⟨"c", "STRICT_DNS", ["b.com"]⟩ res stEmpty = Except.ok out →
         ClusterResolverInv out.1 out.2)) ∧
    (c7b.Reconcile ⟨"c", "STRICT_DNS", ["b.com"]⟩ stEmpty).2.1.Domains = ["b.com"] :=
  ⟨C7_inv_amended c7b ⟨"c", "STRICT_DNS", ["b.com"]⟩ stEmpty
    ⟨List.nodup_nil, List.nodup_nil, fun d => Iff.rfl⟩ (by decide),
   by decide⟩

/-- Claim C8 (amended): `Reconcile` returns an error exactly for the
structural failures — empty name, unrecognized type literal, or a
`STRICT_DNS` configuration on a cluster with no resolver; per-entry
failures (malformed literals, failed registrations) never surface as a
returned error. -/
theorem C8_errors (c : Cluster) (conf : ClusterConfig) (st : ResolverState) :
    (c.Reconcile conf st).1 ≠ none ↔
      conf.name = "" ∨ NewClusterType conf.type = none ∨
        (conf.type = "STRICT_DNS" ∧ c.Resolver = none) := by
  by_cases hn : conf.name = ""
  · rw [reconcile_validate_err c conf st ClusterError.emptyName
      (by simp [Validate, hn])]
    simp [hn]
  · cases h : NewClusterType conf.type with
    | none =>
      rw [reconcile_validate_err c conf st ClusterError.badType
        (by simp [Validate, hn, h])]
      simp [hn, h]
    | some t =>
      have hv : Validate conf = none := by simp [Validate, hn, h]
      cases t with
      | static =>
        rw [reconcile_static_eq c conf st hv h]
        have hns : conf.type ≠ "STRICT_DNS" := by
          intro he
          rw [he] at h
          simp [NewClusterType] at h
        simp [hn, h, hns]
      | strictDNS =>
        have htype : conf.type = "STRICT_DNS" := by
          by_cases h1 : conf.type = "STATIC"
          · rw [h1] at h; simp [NewClusterType] at h
          · by_cases h2 : conf.type = "STRICT_DNS"
            · exact h2
            · simp [NewClusterType, h1, h2] at h
        cases hres : c.Resolver with
        | none =>
          rw [reconcile_dns_noresolver c conf st hv h hres]
          simp [htype]
        | some r =>
          rw [dnsParts c conf st r hv h hres]
          simp [hn, h, hres]

def c8x : Cluster :=
  { Name := "c", type := ClusterType.static, Endpoints := [], Domains := [],
    Resolver := some rAllOK }

/-- Counterexample to claim C8 as stated: a configuration with an empty
name makes `Reconcile` return an error even though its type literal
(`STATIC`) is recognized, the configuration is not `STRICT_DNS`, and the
cluster has a resolver — an error cause outside the claim's two listed
reasons. -/
theorem C8_counterexample :
    (c8x.Reconcile ⟨"", "STATIC", []⟩ stEmpty).1 = some ClusterError.emptyName ∧
    NewClusterType "STATIC" = some ClusterType.static ∧
    (⟨"", "STATIC", []⟩ : ClusterConfig).type ≠ "STRICT_DNS" ∧
    c8x.Resolver.isSome = true :=
  ⟨rfl, rfl, by decide, rfl⟩

theorem dnsSecondPass (c : Cluster) (conf : ClusterConfig) (st : ResolverState)
    (r : DnsResolver) (hv : Validate conf = none)
    (ht : NewClusterType conf.type = some ClusterType.strictDNS)
    (hr : c.Resolver = some r)
    (hsub : ∀ d ∈ c.Domains, d ∈ conf.endpoints)
    (hcov : ∀ d ∈ conf.endpoints, r.regOK d = true → d ∈ c.Domains)
    (htype : c.type = ClusterType.strictDNS) :
    (c.Reconcile conf st).1 = none ∧ (c.Reconcile conf st).2.1 = c ∧
      (c.Reconcile conf st).2.2.registered = st.registered := by
  have hdel : c.Domains.filter (fun y => ¬ member conf.endpoints y) = [] := by
    rw [List.filter_eq_nil_iff]
    intro a ha
    simp [member_iff, hsub a ha]
  have hkeep : c.Domains.filter (fun d => member conf.endpoints d) = c.Domains := by
    rw [List.filter_eq_self]
    intro a ha
    exact member_iff.2 (hsub a ha)
  have hregfail : ∀ a ∈ conf.endpoints.filter (fun d => ¬ member c.Domains d),
      r.regOK a = false := by
    intro a ha
    have haR : a ∈ conf.endpoints := (List.mem_filter.1 ha).1
    have haD : a ∉ c.Domains := by
      have := (List.mem_filter.1 ha).2
      simpa [member_iff] using this
    cases hok : r.regOK a with
    | false => rfl
    | true => exact absurd (hcov a haR hok) haD
  have haddfail :
      (conf.endpoints.filter (fun d => ¬ member c.Domains d)).filter r.regOK = [] := by
    rw [List.filter_eq_nil_iff]
    intro a ha
    simp [hregfail a ha]
  rw [dnsParts c conf st r hv ht hr]
  refine ⟨rfl, ?_, ?_⟩
  · show ({ c with
      type := ClusterType.strictDNS
      Domains := c.Domains.filter (fun d => member conf.endpoints d) ++
        (conf.endpoints.filter (fun d => ¬ member c.Domains d)).filter r.regOK } : Cluster) = c
    rw [hkeep, haddfail, List.append_nil]
    obtain ⟨n, ty, es, ds, rs⟩ := c
    have hty : ty = ClusterType.strictDNS := htype
    rw [hty]
  · show (regLoop r (conf.endpoints.filter (fun x => ¬ member c.Domains x))
      (c.Domains.filter (fun d => member conf.endpoints d))
      { st with
        registered := st.registered.filter
          (fun x => decide (x ∉ c.Domains.filter (fun y => ¬ member conf.endpoints y)))
        unregCalls := st.unregCalls ++
          c.Domains.filter (fun y => ¬ member conf.endpoints y) }).2.registered =
      st.registered
    rw [regLoop_registered_allFail r _ _ _ hregfail]
    rw [hdel]
    simp

/-- Claim C9: `Reconcile` is idempotent — applying the same configuration a
second time returns the same error outcome, leaves the cluster value
(name, type, endpoints, domains, resolver) unchanged, and leaves the
resolver's registration set unchanged, so no duplicate subnets, duplicate
domains or repeated registrations appear. -/
theorem C9_reconcile_idempotent (c : Cluster) (conf : ClusterConfig)
    (st : ResolverState) :
    ((c.Reconcile conf st).2.1.Reconcile conf (c.Reconcile conf st).2.2).1 =
      (c.Reconcile conf st).1 ∧
    ((c.Reconcile conf st).2.1.Reconcile conf (c.Reconcile conf st).2.2).2.1 =
      (c.Reconcile conf st).2.1 ∧
    ((c.Reconcile conf st).2.1.Reconcile conf (c.Reconcile conf st).2.2).2.2.registered =
      (c.Reconcile conf st).2.2.registered := by
  by_cases hn : conf.name = ""
  · have hval : Validate conf = some ClusterError.emptyName := by simp [Validate, hn]
    have h1 := reconcile_validate_err c conf st _ hval
    rw [h1]
    have h2 := reconcile_validate_err c conf ((some ClusterError.emptyName, c, st) :
      Option ClusterError × Cluster × ResolverState).2.2 _ hval
    exact ⟨by rw [h2], by rw [h2], by rw [h2]⟩
  · cases h : NewClusterType conf.type with
    | none =>
      have hval : Validate conf = some ClusterError.badType := by simp [Validate, hn, h]
      have h1 := reconcile_validate_err c conf st _ hval
      rw [h1]
      have h2 := reconcile_validate_err c conf ((some ClusterError.badType, c, st) :
        Option ClusterError × Cluster × ResolverState).2.2 _ hval
      exact ⟨by rw [h2], by rw [h2], by rw [h2]⟩
    | some t =>
      have hv : Validate conf = none := by simp [Validate, hn, h]
      cases t with
      | static =>
        have h1 := reconcile_static_eq c conf st hv h
        rw [h1]
        have h2 := reconcile_static_eq { c with type := ClusterType.static, Endpoints := staticLoop conf.endpoints [] } conf st hv h
        exact ⟨by rw [h2], by rw [h2], by rw [h2]⟩
      | strictDNS =>
        cases hres : c.Resolver with
        | none =>
          have h1 := reconcile_dns_noresolver c conf st hv h hres
          rw [h1]
          have h2 := reconcile_dns_noresolver { c with type := ClusterType.strictDNS } conf st hv h hres
          exact ⟨by rw [h2], by rw [h2], by rw [h2]⟩
        | some r =>
          have e := dnsParts c conf st r hv h hres
          have htype1 : (c.Reconcile conf st).2.1.type = ClusterType.strictDNS := by
            rw [e]
          have hres1 : (c.Reconcile conf st).2.1.Resolver = some r := by
            rw [e]; exact hres
          have hsub : ∀ d ∈ (c.Reconcile conf st).2.1.Domains, d ∈ conf.endpoints := by
            intro d hd
            rcases (dnsDomainsMem c conf st r hv h hres d).1 hd with
              ⟨_, hR⟩ | ⟨hR, _, _⟩ <;> exact hR
          have hcov : ∀ d ∈ conf.endpoints, r.regOK d = true →
              d ∈ (c.Reconcile conf st).2.1.Domains := by
            intro d hR hok
            apply (dnsDomainsMem c conf st r hv h hres d).2
            by_cases hD : d ∈ c.Domains
            · exact Or.inl ⟨hD, hR⟩
            · exact Or.inr ⟨hR, hD, hok⟩
          have hsecond := dnsSecondPass ((c.Reconcile conf st).2.1) conf
            ((c.Reconcile conf st).2.2) r hv h hres1 hsub hcov htype1
          refine ⟨?_, hsecond.2.1, hsecond.2.2⟩
          rw [hsecond.1, e]
